import Mathlib

/-!
Shallow embedding of `src/main.rs` of the `rust-signoz-agent` repository,
together with theorems settling the frozen claims about its specification.

Conventions used throughout:
* Rust strings are modelled as Lean `String` / `List Char`.
* The regex assertions of the `regex` crate are modelled over an ASCII
  character model: the word-character class behind a word boundary is
  alphanumeric-or-underscore, and whitespace is the ASCII whitespace set
  recognised by `Char.isWhitespace`.  All severity keywords and URL
  delimiters involved are ASCII, where the two models agree.
* Effectful inputs (wall clock, OS host name, filesystem, HTTP responses)
  are passed as explicit parameters.
-/

set_option maxHeartbeats 1000000

namespace RustSignozAgent

/-! ### Severity classifier (`detect_severity_generic`, main.rs lines 327-345) -/

/-- Word characters of the regex word-boundary assertion `\b` (ASCII model). -/
def isWordChar (c : Char) : Bool := c.isAlphanum || c == '_'

/-- Case-insensitive match of an (uppercase) literal at the head of a
character list, modelling one alternation branch under the `(?i)` flag. -/
def matchCI : List Char → List Char → Bool
  | [], _ => true
  | _ :: _, [] => false
  | k :: ks, c :: cs => (Char.toUpper c == k) && matchCI ks cs

/-- Word boundary immediately after the first `n` characters of `cs`:
either the text ends there or the next character is not a word character. -/
def boundaryAfterN (n : Nat) (cs : List Char) : Bool :=
  match cs.drop n with
  | [] => true
  | c :: _ => !isWordChar c

/-- The alternation branches of the source pattern
`(?i)\b(INFO|ERROR|WARN|WARNING|DEBUG|CRITICAL|FATAL|NOTICE|TRACE)\b`,
in source order. -/
def severityAlternation : List (List Char) :=
  ["INFO", "ERROR", "WARN", "WARNING", "DEBUG", "CRITICAL", "FATAL", "NOTICE", "TRACE"].map
    String.data

/-- A whole branch match at the head of `cs`: the branch matches
case-insensitively and is followed by a word boundary. -/
def wordMatchHere (kw cs : List Char) : Bool := matchCI kw cs && boundaryAfterN kw.length cs

/-- The capture produced at the head of `cs`, trying the alternation branches
in source order (the branch text as it appears in the haystack). -/
def captureHere (cs : List Char) : Option (List Char) :=
  severityAlternation.findSome? fun kw =>
    if wordMatchHere kw cs then some (cs.take kw.length) else none

/-- Leftmost regex search: scan positions left to right, remembering whether
the previous character was a word character (for the leading `\b`).  A match
can only start where the previous character is not a word character, since
every alternation branch begins with a word character. -/
def regexFindCapture : List Char → Bool → Option (List Char)
  | [], _ => none
  | c :: cs, true => regexFindCapture cs (isWordChar c)
  | c :: cs, false =>
    match captureHere (c :: cs) with
    | some cap => some cap
    | none => regexFindCapture cs (isWordChar c)

/-- The match arms of `detect_severity_generic`, applied to the uppercased
capture, in source order (main.rs lines 332-341). -/
def severityArms (sev : String) : String × Nat :=
  if sev = "TRACE" then ("TRACE", 4)
  else if sev = "DEBUG" then ("DEBUG", 8)
  else if sev = "INFO" then ("INFO", 12)
  else if sev = "NOTICE" then ("INFO", 12)
  else if sev = "WARN" then ("WARN", 13)
  else if sev = "WARNING" then ("WARN", 13)
  else if sev = "ERROR" then ("ERROR", 17)
  else if sev = "CRITICAL" then ("FATAL", 21)
  else if sev = "FATAL" then ("FATAL", 21)
  else ("INFO", 12)

/-- `detect_severity_generic` (main.rs lines 327-345): find the first
whole-word severity keyword, uppercase the capture and map it through the
match arms; with no match the result is `("INFO", 12)`. -/
def detect_severity_generic (line : String) : String × Nat :=
  match regexFindCapture line.data false with
  | some cap => severityArms (String.mk (cap.map Char.toUpper))
  | none => ("INFO", 12)

example : detect_severity_generic "2024-01-01 ERROR disk full" = ("ERROR", 17) := by decide
example : detect_severity_generic "a warning here" = ("WARN", 13) := by decide
example : detect_severity_generic "notice the error" = ("INFO", 12) := by decide
example : detect_severity_generic "INFOERROR" = ("INFO", 12) := by decide
example : detect_severity_generic "critical!" = ("FATAL", 21) := by decide
example : detect_severity_generic "nothing here" = ("INFO", 12) := by decide
example : detect_severity_generic "warning_x fatal" = ("FATAL", 21) := by decide

/-! ### Configuration (`Config`, main.rs lines 20-27) -/

/-- The `Config` struct (main.rs lines 20-27); `rate_limit` is a `u32` in the
source, modelled as `Nat`. -/
structure Config where
  log_files : List String
  endpoint : String
  rate_limit : Option Nat
  service_name : Option String
  host_name : Option String
deriving DecidableEq

/-! ### OTLP payload structures (main.rs lines 181-230) -/

/-- The `AttributeValue` untagged enum (main.rs lines 223-230). -/
inductive AttributeValue
  | stringValue (value : String)
deriving DecidableEq

/-- The `KeyValue` struct (main.rs lines 217-221). -/
structure KeyValue where
  key : String
  value : AttributeValue
deriving DecidableEq

/-- The `LogBody` struct (main.rs lines 211-215). -/
structure LogBody where
  string_value : String
deriving DecidableEq

/-- The `LogRecord` struct (main.rs lines 202-209). -/
structure LogRecord where
  timeUnixNano : String
  severityText : String
  severityNumber : Nat
  body : LogBody
  attributes : List KeyValue
deriving DecidableEq

/-- The `ScopeLog` struct (main.rs lines 197-200). -/
structure ScopeLog where
  logRecords : List LogRecord
deriving DecidableEq

/-- The `Resource` struct (main.rs lines 192-195). -/
structure Resource where
  attributes : List KeyValue
deriving DecidableEq

/-- The `ResourceLog` struct (main.rs lines 186-190). -/
structure ResourceLog where
  resource : Resource
  scopeLogs : List ScopeLog
deriving DecidableEq

/-- The `OtlpLogRecord` struct (main.rs lines 181-184). -/
structure OtlpLogRecord where
  resourceLogs : List ResourceLog
deriving DecidableEq

/-- `build_otlp_payload` (main.rs lines 232-283).  The two effectful inputs
are explicit parameters: `osHostname` models the result of a successful
`hostname::get()` (lossily converted), `nowNanos` models
`Utc::now().timestamp_nanos_opt()`. -/
def build_otlp_payload (line file severity_text : String) (severity_number : Nat)
    (config : Config) (osHostname : Option String) (nowNanos : Option Int) : OtlpLogRecord :=
  let service_name := config.service_name.getD "rust-signoz-agent"
  let host_name := (config.host_name.orElse fun _ => osHostname).getD "unknown"
  { resourceLogs := [{
      resource := { attributes := [
        { key := "service.name", value := AttributeValue.stringValue service_name },
        { key := "host.name", value := AttributeValue.stringValue host_name }] },
      scopeLogs := [{ logRecords := [{
        timeUnixNano := toString (nowNanos.getD 0),
        severityText := severity_text,
        severityNumber := severity_number,
        body := { string_value := line },
        attributes := [{ key := "log.file", value := AttributeValue.stringValue file }] }] }] }] }

/-! ### Delivery dispatcher (`send_to_signoz`, main.rs lines 285-325) -/

/-- `MAX_RETRIES` (main.rs line 286). -/
def MAX_RETRIES : Nat := 3

/-- Result of one `client.post(..).json(..).send()` call.  A reqwest timeout
surfaces as an `Err`, modelled by the dedicated `timeout` constructor. -/
inductive HttpResult
  | response (status : Nat)
  | transportError
  | timeout
deriving DecidableEq

/-- `StatusCode::is_success`: the 2xx range. -/
def isSuccessStatus (s : Nat) : Bool := 200 ≤ s && s < 300

/-- Whether one attempt took the `Ok(r) if r.status().is_success()` arm
(main.rs line 292); everything else is a failed attempt. -/
def attemptSucceeds : HttpResult → Bool
  | .response s => isSuccessStatus s
  | .transportError => false
  | .timeout => false

/-- Observable events of one `send_to_signoz` call, in order. -/
inductive SendEvent
  | post (attempt : Nat) (endpoint : String) (payload : OtlpLogRecord)
  | sleep (ms : Nat)
  | successLog (line : String)
  | dropLog (line : String)
deriving DecidableEq

/-- The retry loop `for attempt in 1..=MAX_RETRIES` (main.rs lines 290-319),
with the post-loop drop message (lines 321-324).  `remaining` counts the loop
iterations still available; the `outcome` parameter gives the HTTP result of
each numbered attempt. -/
def sendAttemptsFrom (outcome : Nat → HttpResult) (endpoint : String)
    (payload : OtlpLogRecord) (log_line : String) : Nat → Nat → List SendEvent
  | 0, _ => [SendEvent.dropLog log_line]
  | remaining + 1, attempt =>
    SendEvent.post attempt endpoint payload ::
    if attemptSucceeds (outcome attempt) then [SendEvent.successLog log_line]
    else
      (if attempt < MAX_RETRIES then [SendEvent.sleep (500 * 2 ^ (attempt - 1))] else []) ++
      sendAttemptsFrom outcome endpoint payload log_line remaining (attempt + 1)

/-- `send_to_signoz` (main.rs lines 285-325): classify the line, build the
payload once, then run the retry loop. -/
def send_to_signoz (config : Config) (endpoint log_line file : String)
    (osHostname : Option String) (nowNanos : Option Int)
    (outcome : Nat → HttpResult) : List SendEvent :=
  let sev := detect_severity_generic log_line
  let payload := build_otlp_payload log_line file sev.1 sev.2 config osHostname nowNanos
  sendAttemptsFrom outcome endpoint payload log_line MAX_RETRIES 1

/-! ### File tailer (`tail_file`, main.rs lines 134-179) -/

/-- Result of one `reader.read_line(..)` call: `eof` is `Ok(0)`, `line s` is
`Ok(_)` with the read text `s` (trailing newline included when present),
`fail` is `Err(_)`. -/
inductive ReadResult
  | eof
  | line (s : String)
  | fail
deriving DecidableEq

/-- Observable events of the tailer worker. -/
inductive TailEvent
  | openAttempt
  | openFailLog
  | emit (line : String)
  | pollSleep
  | errorLogSleep
  | reopenAttempt
  | reopenSeekEnd
  | reopenFailSleep
deriving DecidableEq

/-- Rust `str::trim_end` (drop trailing whitespace), on the char list model. -/
def rustTrimEnd (cs : List Char) : List Char :=
  (cs.reverse.dropWhile Char.isWhitespace).reverse

/-- Rust `str::trim` (drop leading and trailing whitespace). -/
def rustTrim (cs : List Char) : List Char :=
  (rustTrimEnd cs).dropWhile Char.isWhitespace

/-- The tailer read loop (main.rs lines 150-177) over a finite schedule of
read results.  `reopenOk` tells whether the reopen after the given number of
earlier read errors succeeds; the handler call is the `emit` event. -/
def tailLoop (reopenOk : Nat → Bool) : List ReadResult → Nat → List TailEvent
  | [], _ => []
  | ReadResult.eof :: rs, errs => TailEvent.pollSleep :: tailLoop reopenOk rs errs
  | ReadResult.line s :: rs, errs =>
    (if (rustTrim s.data).isEmpty then [] else [TailEvent.emit (String.mk (rustTrimEnd s.data))]) ++
    tailLoop reopenOk rs errs
  | ReadResult.fail :: rs, errs =>
    TailEvent.errorLogSleep :: TailEvent.reopenAttempt ::
    (if reopenOk errs then [TailEvent.reopenSeekEnd] else [TailEvent.reopenFailSleep]) ++
    tailLoop reopenOk rs (errs + 1)

/-- `tail_file` worker body (main.rs lines 138-177): the initial open either
succeeds and enters the read loop, or the worker logs the failure and
returns. -/
def tail_file (openOk : Bool) (reopenOk : Nat → Bool) (reads : List ReadResult) :
    List TailEvent :=
  TailEvent.openAttempt ::
  (if openOk then tailLoop reopenOk reads 0 else [TailEvent.openFailLog])

/-! ### Config validation (`validate_config`, main.rs lines 102-132) -/

/-- The error cases of `validate_config`, in source order. -/
inductive ConfigError
  | missingLogFile (f : String)
  | inaccessibleLogFile (f : String)
  | badEndpointScheme
  | badEndpointFormat
deriving DecidableEq

/-- Literal pattern match at the head of a char list (Rust `str::starts_with`
with a literal pattern). -/
def litAt : List Char → List Char → Bool
  | [], _ => true
  | _ :: _, [] => false
  | p :: ps, c :: cs => (c == p) && litAt ps cs

/-- The `starts_with("http://") || starts_with("https://")` check
(main.rs line 117). -/
def schemeOk (endpoint : String) : Bool :=
  litAt "http://".data endpoint.data || litAt "https://".data endpoint.data

/-- Membership in the character class `[^\s/$.?#]` of the URL regex. -/
def urlClassOk (c : Char) : Bool :=
  !c.isWhitespace && !(c == '/') && !(c == '$') && !(c == '.') && !(c == '?') && !(c == '#')

/-- The part of the URL regex after the scheme: `[^\s/$.?#].[^\s]*$`
(one class character, one any-but-newline character, then non-whitespace to
the end of the haystack). -/
def urlTailOk : List Char → Bool
  | c1 :: c2 :: rest => urlClassOk c1 && !(c2 == '\n') && rest.all (fun c => !c.isWhitespace)
  | _ => false

/-- `is_match` of the anchored pattern `^https?://[^\s/$.?#].[^\s]*$`
(main.rs line 123). -/
def urlRegexMatch (endpoint : String) : Bool :=
  if litAt "https://".data endpoint.data then urlTailOk (endpoint.data.drop 8)
  else if litAt "http://".data endpoint.data then urlTailOk (endpoint.data.drop 7)
  else false

example : urlRegexMatch "http://localhost:4318/v1/logs" = true := by decide
example : urlRegexMatch "https://collector.example.com:4318/v1/logs" = true := by decide
example : urlRegexMatch "http://a" = false := by decide
example : urlRegexMatch "http://ab" = true := by decide
example : urlRegexMatch "http://.x" = false := by decide
example : urlRegexMatch "http://a b" = true := by decide
example : urlRegexMatch "http://ab c" = false := by decide
example : urlRegexMatch "ftp://x" = false := by decide
example : schemeOk "ftp://x" = false := by decide

/-- The per-file loop of `validate_config` (main.rs lines 103-115):
`fsExists` models `Path::exists`, `metaOk` models `fs::metadata(..).is_ok()`. -/
def checkLogFiles (fsExists metaOk : String → Bool) : List String → Except ConfigError Unit
  | [] => Except.ok ()
  | f :: rest =>
    if !fsExists f then Except.error (ConfigError.missingLogFile f)
    else if !metaOk f then Except.error (ConfigError.inaccessibleLogFile f)
    else checkLogFiles fsExists metaOk rest

/-- `validate_config` (main.rs lines 102-132). -/
def validate_config (fsExists metaOk : String → Bool) (config : Config) :
    Except ConfigError Unit :=
  match checkLogFiles fsExists metaOk config.log_files with
  | Except.error e => Except.error e
  | Except.ok _ =>
    if !schemeOk config.endpoint then Except.error ConfigError.badEndpointScheme
    else if !urlRegexMatch config.endpoint then Except.error ConfigError.badEndpointFormat
    else Except.ok ()

/-! ### Rate limiter construction (main.rs lines 407-411, 422-427) -/

/-- The limiter construction in `main` (lines 407-411): for a present
`rate_limit` the quota is `NonZeroU32::new(limit).unwrap_or(nonzero!(100u32))`
records per second; an absent `rate_limit` builds no limiter.  The result is
the refill rate of the constructed limiter, when one is constructed. -/
def limiterOfConfig (config : Config) : Option Nat :=
  config.rate_limit.map fun limit => if limit == 0 then 100 else limit

/-- The sender thread (lines 422-427) waits for a token before each send
exactly when a limiter was constructed. -/
def dispatcherWaits (config : Config) : Bool := (limiterOfConfig config).isSome

/-! ### Claim-side (specification) definitions for the severity classifier -/

/-- Modelled from the spec: the fixed keyword set of the severity mapping. -/
def claimKeywords : List String :=
  ["TRACE", "DEBUG", "INFO", "NOTICE", "WARN", "WARNING", "ERROR", "CRITICAL", "FATAL"]

/-- Modelled from the spec: the claimed keyword-to-(text, number) table. -/
def claimMap (kw : String) : String × Nat :=
  if kw = "TRACE" then ("TRACE", 4)
  else if kw = "DEBUG" then ("DEBUG", 8)
  else if kw = "INFO" then ("INFO", 12)
  else if kw = "NOTICE" then ("INFO", 12)
  else if kw = "WARN" then ("WARN", 13)
  else if kw = "WARNING" then ("WARN", 13)
  else if kw = "ERROR" then ("ERROR", 17)
  else if kw = "CRITICAL" then ("FATAL", 21)
  else if kw = "FATAL" then ("FATAL", 21)
  else ("INFO", 12)

/-- Modelled from the spec: `kw` occurs at character position `p` of `cs` as a
standalone word, case-insensitively — the character before (if any) is not a
word character, the keyword matches ignoring letter case, and the character
after (if any) is not a word character. -/
def wholeWordAt (kw : String) (cs : List Char) (p : Nat) : Bool :=
  (decide (p = 0) || !isWordChar (cs.getD (p - 1) ' ')) &&
  decide (((cs.drop p).take kw.data.length).map Char.toUpper = kw.data) &&
  boundaryAfterN kw.data.length (cs.drop p)

example : wholeWordAt "ERROR" "2024-01-01 ERROR disk full".data 11 = true := by decide
example : wholeWordAt "WARN" "a warning".data 2 = false := by decide
example : wholeWordAt "WARNING" "a warning".data 2 = true := by decide

/-! ### Lemmas about the severity classifier -/

/-- The word-boundary flag carried by the scan, as a predicate on positions of
the full text: position `p` is preceded by a non-word character (or is the
start, in which case `prevW` tells the wordness of the character just before
the scanned suffix). -/
def boundaryBefore (cs : List Char) (prevW : Bool) (p : Nat) : Bool :=
  if p = 0 then !prevW else !isWordChar (cs.getD (p - 1) ' ')

theorem boundaryBefore_cons (c : Char) (cs : List Char) (prevW : Bool) (p : Nat) :
    boundaryBefore (c :: cs) prevW (p + 1) = boundaryBefore cs (isWordChar c) p := by
  cases p with
  | zero => simp [boundaryBefore]
  | succ q => simp [boundaryBefore, List.getD_cons_succ]

theorem matchCI_iff (kw : List Char) : ∀ cs : List Char,
    matchCI kw cs = true ↔ ((cs.take kw.length).map Char.toUpper) = kw := by
  induction kw with
  | nil => intro cs; simp [matchCI]
  | cons k ks ih =>
    intro cs
    cases cs with
    | nil => simp [matchCI]
    | cons c cs' =>
      simp [matchCI, List.take_succ_cons, ih cs', Bool.and_eq_true, beq_iff_eq]

theorem matchCI_length_le {kw cs : List Char} (h : matchCI kw cs = true) :
    kw.length ≤ cs.length := by
  have h' := (matchCI_iff kw cs).mp h
  have : ((cs.take kw.length).map Char.toUpper).length = kw.length := by rw [h']
  simpa [List.length_take] using this

/-- Extracting an existential witness from `List.findSome?`. -/
theorem exists_of_findSome {α β : Type} (f : α → Option β) (l : List α) (b : β)
    (h : l.findSome? f = some b) : ∃ a ∈ l, f a = some b := by
  induction l with
  | nil => simp [List.findSome?] at h
  | cons a l ih =>
    rw [List.findSome?] at h
    cases hfa : f a with
    | some b' =>
      rw [hfa] at h
      simp only [Option.some.injEq] at h
      exact ⟨a, by simp, by rw [hfa, h]⟩
    | none =>
      rw [hfa] at h
      obtain ⟨a', ha', hfa'⟩ := ih h
      exact ⟨a', by simp [ha'], hfa'⟩

theorem captureHere_eq_none_iff (cs : List Char) :
    captureHere cs = none ↔ ∀ kw ∈ severityAlternation, wordMatchHere kw cs = false := by
  unfold captureHere
  rw [List.findSome?_eq_none_iff]
  constructor
  · intro h kw hkw
    have h2 := h kw hkw
    by_cases hm : wordMatchHere kw cs = true
    · rw [if_pos hm] at h2; cases h2
    · simpa using hm
  · intro h kw hkw
    simp [h kw hkw]

theorem captureHere_shape {cs cap : List Char} (h : captureHere cs = some cap) :
    ∃ kw ∈ severityAlternation, wordMatchHere kw cs = true ∧ cap = cs.take kw.length := by
  obtain ⟨kw, hkw, hfkw⟩ := exists_of_findSome _ _ _ h
  by_cases hm : wordMatchHere kw cs = true
  · refine ⟨kw, hkw, hm, ?_⟩
    rw [if_pos hm] at hfkw
    simp only [Option.some.injEq] at hfkw
    exact hfkw.symm
  · rw [if_neg hm] at hfkw
    cases hfkw

/-- Among the alternation branches, one being a take-prefix of another only
happens for equal branches or for the `WARN`/`WARNING` pair. -/
theorem alternation_take_cases :
    ∀ k1 ∈ severityAlternation, ∀ k2 ∈ severityAlternation,
      k1.length ≤ k2.length → k1 = k2.take k1.length →
      k1 = k2 ∨ (k1 = "WARN".data ∧ k2 = "WARNING".data) := by decide

/-- A case-insensitive match of `WARNING` pins the fifth character of the
haystack to an `I` up to case. -/
theorem warning_fifth {cs : List Char} (h : matchCI "WARNING".data cs = true) :
    ∃ c4 rest, cs.drop 4 = c4 :: rest ∧ Char.toUpper c4 = 'I' := by
  have h' : matchCI ['W','A','R','N','I','N','G'] cs = true := h
  rcases cs with _ | ⟨c0, _ | ⟨c1, _ | ⟨c2, _ | ⟨c3, _ | ⟨c4, rest⟩⟩⟩⟩⟩ <;>
    simp [matchCI] at h'
  exact ⟨c4, rest, rfl, h'.2.2.2.2.1⟩

/-- A character whose ASCII uppercasing is a letter is itself a word
character. -/
theorem isWordChar_of_toUpper_isAlpha {c : Char} (h : (Char.toUpper c).isAlpha = true) :
    isWordChar c = true := by
  rw [show Char.toUpper c =
      if c.toNat ≥ 97 ∧ c.toNat ≤ 122 then Char.ofNat (c.toNat - 32) else c from rfl] at h
  by_cases hc : c.toNat ≥ 97 ∧ c.toNat ≤ 122
  · have h1 : (97 : UInt32) ≤ c.val := by rw [UInt32.le_def, BitVec.le_def]; exact hc.1
    have h2 : c.val ≤ (122 : UInt32) := by rw [UInt32.le_def, BitVec.le_def]; exact hc.2
    simp [isWordChar, Char.isAlphanum, Char.isAlpha, Char.isLower, h1, h2]
  · rw [if_neg hc] at h
    simp [isWordChar, Char.isAlphanum, h]

theorem boundaryAfterN_false_of_head {n : Nat} {cs : List Char} {c : Char} {rest : List Char}
    (hdrop : cs.drop n = c :: rest) (hw : isWordChar c = true) :
    boundaryAfterN n cs = false := by
  unfold boundaryAfterN
  rw [hdrop]
  simp [hw]

/-- At a fixed position, the shorter of two whole-word branch matches forces
the branches to be equal (the `WARN`-inside-`WARNING` clash is ruled out by
the word boundary). -/
theorem wordMatch_asymm {k1 k2 cs : List Char}
    (h1 : k1 ∈ severityAlternation) (h2 : k2 ∈ severityAlternation)
    (m1 : wordMatchHere k1 cs = true) (m2 : wordMatchHere k2 cs = true)
    (hle : k1.length ≤ k2.length) : k1 = k2 := by
  simp only [wordMatchHere, Bool.and_eq_true] at m1 m2
  have e1 : (cs.take k1.length).map Char.toUpper = k1 := (matchCI_iff _ _).mp m1.1
  have e2 : (cs.take k2.length).map Char.toUpper = k2 := (matchCI_iff _ _).mp m2.1
  have htake : k1 = k2.take k1.length := by
    rw [← e2, ← List.map_take, List.take_take, min_eq_left hle, e1]
  rcases alternation_take_cases k1 h1 k2 h2 hle htake with heq | ⟨hw1, hw2⟩
  · exact heq
  · exfalso
    subst hw1
    subst hw2
    obtain ⟨c4, rest, hdrop, hI⟩ := warning_fifth m2.1
    have hw : isWordChar c4 = true := isWordChar_of_toUpper_isAlpha (by rw [hI]; decide)
    have hfalse : boundaryAfterN 4 cs = false := boundaryAfterN_false_of_head hdrop hw
    have hb : boundaryAfterN ("WARN".data).length cs = true := m1.2
    rw [show ("WARN".data).length = 4 from rfl, hfalse] at hb
    cases hb

/-- At a fixed position, at most one alternation branch produces a whole-word
match. -/
theorem wordMatch_unique {k1 k2 cs : List Char}
    (h1 : k1 ∈ severityAlternation) (h2 : k2 ∈ severityAlternation)
    (m1 : wordMatchHere k1 cs = true) (m2 : wordMatchHere k2 cs = true) : k1 = k2 := by
  rcases Nat.le_total k1.length k2.length with hle | hle
  · exact wordMatch_asymm h1 h2 m1 m2 hle
  · exact (wordMatch_asymm h2 h1 m2 m1 hle).symm

/-- `findSome?` when exactly one element of the list can fire. -/
theorem findSome_unique {α β : Type} (f : α → Option β) (kw : α) (v : β)
    (hf : f kw = some v) : ∀ l : List α, kw ∈ l →
    (∀ k ∈ l, f k ≠ none → k = kw) → l.findSome? f = some v := by
  intro l
  induction l with
  | nil => intro h; cases h
  | cons a l ih =>
    intro hmem huniq
    rw [List.findSome?]
    cases hfa : f a with
    | some b =>
      have ha : a = kw := huniq a (List.mem_cons_self a l) (by rw [hfa]; exact Option.some_ne_none b)
      subst ha
      rw [hf] at hfa
      simp only [Option.some.injEq] at hfa
      simp [hfa]
    | none =>
      have hne : a ≠ kw := fun h => by rw [h, hf] at hfa; cases hfa
      have hmem' : kw ∈ l := by
        rcases List.mem_cons.mp hmem with h | h
        · exact absurd h.symm hne
        · exact h
      exact ih hmem' fun k hk => huniq k (List.mem_cons_of_mem a hk)

/-- When some branch produces a whole-word match at the head of `cs`, the
capture is that branch's take of the haystack. -/
theorem captureHere_of_match {cs kw : List Char} (hkw : kw ∈ severityAlternation)
    (hm : wordMatchHere kw cs = true) :
    captureHere cs = some (cs.take kw.length) := by
  unfold captureHere
  refine findSome_unique _ kw _ ?_ severityAlternation hkw ?_
  · rw [if_pos hm]
  · intro k hk hne
    by_cases hmk : wordMatchHere k cs = true
    · exact wordMatch_unique hk hkw hmk hm
    · exact absurd (if_neg hmk) hne

/-- If no position admits a whole-word branch match, the scan returns
nothing. -/
theorem scan_none : ∀ (cs : List Char) (prevW : Bool),
    (∀ p, boundaryBefore cs prevW p = true → captureHere (cs.drop p) = none) →
    regexFindCapture cs prevW = none := by
  intro cs
  induction cs with
  | nil => intro prevW _; rfl
  | cons c cs' ih =>
    intro prevW h
    have hshift : ∀ p, boundaryBefore cs' (isWordChar c) p = true →
        captureHere (cs'.drop p) = none := by
      intro p hp
      have := h (p + 1) (by rw [boundaryBefore_cons]; exact hp)
      simpa using this
    cases prevW with
    | true => exact ih (isWordChar c) hshift
    | false =>
      have h0 : captureHere (c :: cs') = none := h 0 (by simp [boundaryBefore])
      rw [regexFindCapture, h0]
      exact ih _ hshift

/-- The scan returns the capture of the first position that admits a
whole-word branch match. -/
theorem scan_finds : ∀ (cs : List Char) (prevW : Bool) (p : Nat),
    boundaryBefore cs prevW p = true →
    captureHere (cs.drop p) ≠ none →
    (∀ q, q < p → boundaryBefore cs prevW q = true → captureHere (cs.drop q) = none) →
    regexFindCapture cs prevW = captureHere (cs.drop p) := by
  intro cs
  induction cs with
  | nil =>
    intro prevW p _ hc _
    exact absurd (by rw [List.drop_nil]; decide) hc
  | cons c cs' ih =>
    intro prevW p hb hc hmin
    cases p with
    | zero =>
      have hw : prevW = false := by
        simp [boundaryBefore] at hb
        exact hb
      subst hw
      rw [regexFindCapture]
      cases hcap : captureHere (c :: cs') with
      | none => exact absurd (by simpa using hcap) hc
      | some cap => simp [List.drop_zero, hcap]
    | succ q =>
      have hb' : boundaryBefore cs' (isWordChar c) q = true := by
        rw [← boundaryBefore_cons]; exact hb
      have hc' : captureHere (cs'.drop q) ≠ none := by simpa using hc
      have hmin' : ∀ r, r < q → boundaryBefore cs' (isWordChar c) r = true →
          captureHere (cs'.drop r) = none := by
        intro r hr hbr
        have := hmin (r + 1) (by omega) (by rw [boundaryBefore_cons]; exact hbr)
        simpa using this
      have goal' := ih (isWordChar c) q hb' hc' hmin'
      cases prevW with
      | true => rw [regexFindCapture]; simpa using goal'
      | false =>
        have h0 : captureHere (c :: cs') = none :=
          hmin 0 (by omega) (by simp [boundaryBefore])
        rw [regexFindCapture, h0]
        simpa using goal'

/-- `wholeWordAt` agrees with the scan-side boundary and branch-match
predicates. -/
theorem wholeWordAt_iff (kw : String) (cs : List Char) (p : Nat) :
    wholeWordAt kw cs p = true ↔
      boundaryBefore cs false p = true ∧ wordMatchHere kw.data (cs.drop p) = true := by
  have hA : (decide (p = 0) || !isWordChar (cs.getD (p - 1) ' ')) = boundaryBefore cs false p := by
    cases p with
    | zero => simp [boundaryBefore]
    | succ q => simp [boundaryBefore]
  have hm := matchCI_iff kw.data (cs.drop p)
  unfold wholeWordAt wordMatchHere
  rw [hA]
  simp only [Bool.and_eq_true, decide_eq_true_eq]
  tauto

theorem claimKeywords_ne_nil : ∀ kw ∈ claimKeywords, kw.data ≠ [] := by decide

theorem alt_mem_of_claim : ∀ kw ∈ claimKeywords, kw.data ∈ severityAlternation := by decide

theorem claim_mem_of_alt : ∀ k ∈ severityAlternation,
    String.mk k ∈ claimKeywords ∧ (String.mk k).data = k := by decide

theorem severityArms_claimMap : ∀ kw ∈ claimKeywords,
    severityArms (String.mk kw.data) = claimMap kw := by decide

theorem wholeWordAt_ge_length {kw : String} {cs : List Char} {p : Nat}
    (hkw : kw ∈ claimKeywords) (hp : cs.length ≤ p) : wholeWordAt kw cs p = false := by
  cases hw : wholeWordAt kw cs p with
  | false => rfl
  | true =>
    exfalso
    obtain ⟨-, hmm⟩ := (wholeWordAt_iff kw cs p).mp hw
    simp only [wordMatchHere, Bool.and_eq_true] at hmm
    have hdrop : cs.drop p = [] := List.drop_eq_nil_of_le hp
    rw [hdrop] at hmm
    have := claimKeywords_ne_nil kw hkw
    cases hkd : kw.data with
    | nil => exact this hkd
    | cons k ks => rw [hkd] at hmm; cases hmm.1

/-- Every capture the scan can return is an alternation branch up to case. -/
theorem regexFind_shape : ∀ (cs : List Char) (prevW : Bool) (cap : List Char),
    regexFindCapture cs prevW = some cap →
    ∃ kw ∈ severityAlternation, cap.map Char.toUpper = kw := by
  intro cs
  induction cs with
  | nil => intro prevW cap h; cases h
  | cons c cs' ih =>
    intro prevW cap h
    cases prevW with
    | true => exact ih _ cap h
    | false =>
      rw [regexFindCapture] at h
      cases hcap : captureHere (c :: cs') with
      | some cap' =>
        rw [hcap] at h
        simp only [Option.some.injEq] at h
        obtain ⟨kw, hkw, hm, hcapeq⟩ := captureHere_shape hcap
        refine ⟨kw, hkw, ?_⟩
        rw [← h, hcapeq]
        simp only [wordMatchHere, Bool.and_eq_true] at hm
        exact (matchCI_iff kw _).mp hm.1
      | none =>
        rw [hcap] at h
        exact ih _ cap h

/-! ### The claims about the severity classifier (C1, C9) -/

/-- C1: for every line, `detect_severity_generic` returns exactly the mapped
pair of the first whole-word, case-insensitive occurrence of a keyword from
the fixed set (TRACE, DEBUG, INFO, NOTICE, WARN, WARNING, ERROR, CRITICAL,
FATAL with the claimed aliases), and returns `("INFO", 12)` for every line
containing no such keyword as a standalone word. -/
theorem C1_severity_first_keyword (line : String) :
    (∀ (p : Nat) (kw : String), kw ∈ claimKeywords →
        wholeWordAt kw line.data p = true →
        (∀ q, q < p → ∀ kw2 ∈ claimKeywords, wholeWordAt kw2 line.data q = false) →
        detect_severity_generic line = claimMap kw) ∧
    ((∀ p, p < line.data.length → ∀ kw ∈ claimKeywords, wholeWordAt kw line.data p = false) →
      detect_severity_generic line = ("INFO", 12)) := by
  constructor
  · intro p kw hkw hocc hmin
    obtain ⟨hb, hm⟩ := (wholeWordAt_iff kw line.data p).mp hocc
    have hcap : captureHere (line.data.drop p) =
        some ((line.data.drop p).take kw.data.length) :=
      captureHere_of_match (alt_mem_of_claim kw hkw) hm
    have hscan : regexFindCapture line.data false = captureHere (line.data.drop p) := by
      apply scan_finds line.data false p hb (by rw [hcap]; exact Option.some_ne_none _)
      intro q hq hbq
      rw [captureHere_eq_none_iff]
      intro k hk
      cases hwk : wordMatchHere k (line.data.drop q) with
      | false => rfl
      | true =>
        exfalso
        obtain ⟨hmem, hdata⟩ := claim_mem_of_alt k hk
        have hww : wholeWordAt (String.mk k) line.data q = true := by
          rw [wholeWordAt_iff]
          exact ⟨hbq, by rw [hdata]; exact hwk⟩
        rw [hmin q hq (String.mk k) hmem] at hww
        cases hww
    have hmap : ((line.data.drop p).take kw.data.length).map Char.toUpper = kw.data := by
      simp only [wordMatchHere, Bool.and_eq_true] at hm
      exact (matchCI_iff _ _).mp hm.1
    unfold detect_severity_generic
    rw [hscan, hcap]
    show severityArms (String.mk (((line.data.drop p).take kw.data.length).map Char.toUpper)) =
      claimMap kw
    rw [hmap]
    exact severityArms_claimMap kw hkw
  · intro hno
    have hnone : regexFindCapture line.data false = none := by
      apply scan_none
      intro p hbp
      rw [captureHere_eq_none_iff]
      intro k hk
      cases hwk : wordMatchHere k (line.data.drop p) with
      | false => rfl
      | true =>
        exfalso
        obtain ⟨hmem, hdata⟩ := claim_mem_of_alt k hk
        have hww : wholeWordAt (String.mk k) line.data p = true := by
          rw [wholeWordAt_iff]
          exact ⟨hbp, by rw [hdata]; exact hwk⟩
        by_cases hp : p < line.data.length
        · rw [hno p hp (String.mk k) hmem] at hww; cases hww
        · rw [wholeWordAt_ge_length hmem (by omega)] at hww; cases hww
    unfold detect_severity_generic
    rw [hnone]

/-- C1 witness: the theorem applied to the line
`"2024-01-01 ERROR disk full"`, whose first whole-word keyword is `ERROR` at
position 11, yields the mapped pair `("ERROR", 17)`. -/
theorem C1_severity_first_keyword_witness :
    detect_severity_generic "2024-01-01 ERROR disk full" = claimMap "ERROR" :=
  (C1_severity_first_keyword "2024-01-01 ERROR disk full").1 11 "ERROR" (by decide)
    (by decide) (by decide)

/-- C9: `detect_severity_generic` is total with results confined to the fixed
six-element severity set, and the catch-all match arm is unreachable: every
capture the regex search can produce is, after uppercasing, one of the nine
listed keywords, each of which is handled by a listed arm. -/
theorem C9_severity_total_range (line : String) :
    detect_severity_generic line ∈
      [("TRACE", 4), ("DEBUG", 8), ("INFO", 12), ("WARN", 13), ("ERROR", 17), ("FATAL", 21)] ∧
    (∀ cap, regexFindCapture line.data false = some cap →
      String.mk (cap.map Char.toUpper) ∈ claimKeywords) := by
  have harms : ∀ k ∈ severityAlternation,
      String.mk k ∈ claimKeywords ∧
      severityArms (String.mk k) ∈
        [("TRACE", 4), ("DEBUG", 8), ("INFO", 12), ("WARN", 13), ("ERROR", 17),
         ("FATAL", 21)] := by decide
  constructor
  · unfold detect_severity_generic
    cases hfind : regexFindCapture line.data false with
    | none => simp
    | some cap =>
      obtain ⟨kw, hkw, hmap⟩ := regexFind_shape line.data false cap hfind
      show severityArms (String.mk (cap.map Char.toUpper)) ∈ _
      rw [hmap]
      exact (harms kw hkw).2
  · intro cap hfind
    obtain ⟨kw, hkw, hmap⟩ := regexFind_shape line.data false cap hfind
    rw [hmap]
    exact (harms kw hkw).1

/-- C9 witness: the theorem applied to a line whose capture is the lowercase
`warning`, whose uppercasing is the listed keyword `WARNING`. -/
theorem C9_severity_total_range_witness :
    String.mk (("warning".data).map Char.toUpper) ∈ claimKeywords :=
  (C9_severity_total_range "a warning here").2 "warning".data (by decide)

/-! ### The claims about the delivery dispatcher (C3, C4, C10) -/

/-- Complete characterization of one `send_to_signoz` call's event trace by
the outcomes of the three attempts. -/
theorem send_trace_cases (config : Config) (endpoint log_line file : String)
    (osHostname : Option String) (nowNanos : Option Int) (outcome : Nat → HttpResult) :
    send_to_signoz config endpoint log_line file osHostname nowNanos outcome =
      (let payload := build_otlp_payload log_line file (detect_severity_generic log_line).1
          (detect_severity_generic log_line).2 config osHostname nowNanos
      if attemptSucceeds (outcome 1) = true then
        [SendEvent.post 1 endpoint payload, SendEvent.successLog log_line]
      else if attemptSucceeds (outcome 2) = true then
        [SendEvent.post 1 endpoint payload, SendEvent.sleep 500,
         SendEvent.post 2 endpoint payload, SendEvent.successLog log_line]
      else if attemptSucceeds (outcome 3) = true then
        [SendEvent.post 1 endpoint payload, SendEvent.sleep 500,
         SendEvent.post 2 endpoint payload, SendEvent.sleep 1000,
         SendEvent.post 3 endpoint payload, SendEvent.successLog log_line]
      else
        [SendEvent.post 1 endpoint payload, SendEvent.sleep 500,
         SendEvent.post 2 endpoint payload, SendEvent.sleep 1000,
         SendEvent.post 3 endpoint payload, SendEvent.dropLog log_line]) := by
  unfold send_to_signoz
  by_cases h1 : attemptSucceeds (outcome 1) = true <;>
    by_cases h2 : attemptSucceeds (outcome 2) = true <;>
      by_cases h3 : attemptSucceeds (outcome 3) = true <;>
        simp [sendAttemptsFrom, MAX_RETRIES, h1, h2, h3,
          show (3 : Nat) = 2 + 1 from rfl, show (2 : Nat) = 1 + 1 from rfl]

/-- C3: with every attempt failing, the trace is exactly three posts with a
500 ms sleep between attempts 1 and 2, a 1000 ms sleep between attempts 2 and
3, no sleep after the third failure, and a final drop message carrying the
entry's content; in particular no 4th post occurs. -/
theorem C3_three_attempts_then_drop (config : Config) (endpoint log_line file : String)
    (osHostname : Option String) (nowNanos : Option Int) (outcome : Nat → HttpResult)
    (hfail : ∀ a, attemptSucceeds (outcome a) = false) :
    (send_to_signoz config endpoint log_line file osHostname nowNanos outcome =
      (let payload := build_otlp_payload log_line file (detect_severity_generic log_line).1
          (detect_severity_generic log_line).2 config osHostname nowNanos
      [SendEvent.post 1 endpoint payload, SendEvent.sleep 500,
       SendEvent.post 2 endpoint payload, SendEvent.sleep 1000,
       SendEvent.post 3 endpoint payload, SendEvent.dropLog log_line])) ∧
    (∀ a e p, SendEvent.post a e p ∈
        send_to_signoz config endpoint log_line file osHostname nowNanos outcome →
      1 ≤ a ∧ a ≤ 3) := by
  have ht := send_trace_cases config endpoint log_line file osHostname nowNanos outcome
  rw [hfail 1, hfail 2, hfail 3] at ht
  simp only [Bool.false_eq_true, if_false] at ht
  refine ⟨ht, ?_⟩
  intro a e p hmem
  rw [ht] at hmem
  simp only [List.mem_cons, List.not_mem_nil, or_false] at hmem
  rcases hmem with h | h | h | h | h | h <;> first
    | (cases h; omega)
    | cases h

/-- C3 witness: the theorem applied to an outcome that always reports a
transport error. -/
theorem C3_three_attempts_then_drop_witness :
    send_to_signoz
        { log_files := ["/var/log/app.log"], endpoint := "http://localhost:4318/v1/logs",
          rate_limit := none, service_name := none, host_name := none }
        "http://localhost:4318/v1/logs" "boom" "/var/log/app.log" none none
        (fun _ => HttpResult.transportError) =
      (let payload := build_otlp_payload "boom" "/var/log/app.log"
          (detect_severity_generic "boom").1 (detect_severity_generic "boom").2
          { log_files := ["/var/log/app.log"], endpoint := "http://localhost:4318/v1/logs",
            rate_limit := none, service_name := none, host_name := none } none none
      [SendEvent.post 1 "http://localhost:4318/v1/logs" payload, SendEvent.sleep 500,
       SendEvent.post 2 "http://localhost:4318/v1/logs" payload, SendEvent.sleep 1000,
       SendEvent.post 3 "http://localhost:4318/v1/logs" payload, SendEvent.dropLog "boom"]) :=
  (C3_three_attempts_then_drop
      { log_files := ["/var/log/app.log"], endpoint := "http://localhost:4318/v1/logs",
        rate_limit := none, service_name := none, host_name := none }
      "http://localhost:4318/v1/logs" "boom" "/var/log/app.log" none none
      (fun _ => HttpResult.transportError) (fun _ => rfl)).1

/-- C4: an entry is marked delivered (a success message is logged) exactly
when one of the first three attempts receives an HTTP response with a status
in the success range — non-success statuses, transport errors and timeouts
all being failed attempts — and no post happens after a successful attempt. -/
theorem C4_delivered_iff_success (config : Config) (endpoint log_line file : String)
    (osHostname : Option String) (nowNanos : Option Int) (outcome : Nat → HttpResult) :
    ((∃ l, SendEvent.successLog l ∈
        send_to_signoz config endpoint log_line file osHostname nowNanos outcome) ↔
      ∃ a, 1 ≤ a ∧ a ≤ MAX_RETRIES ∧ attemptSucceeds (outcome a) = true) ∧
    (∀ a, 1 ≤ a → a ≤ MAX_RETRIES → attemptSucceeds (outcome a) = true →
      ∀ b e p, SendEvent.post b e p ∈
          send_to_signoz config endpoint log_line file osHostname nowNanos outcome →
        b ≤ a) := by
  have ht := send_trace_cases config endpoint log_line file osHostname nowNanos outcome
  rw [MAX_RETRIES]
  by_cases h1 : attemptSucceeds (outcome 1) = true <;>
    by_cases h2 : attemptSucceeds (outcome 2) = true <;>
      by_cases h3 : attemptSucceeds (outcome 3) = true <;>
  · simp only [h1, h2, h3, Bool.false_eq_true, if_true, if_false] at ht
    constructor
    · constructor
      · rintro ⟨l, hl⟩
        rw [ht] at hl
        simp at hl
        all_goals
          first
            | exact ⟨1, by omega, by omega, h1⟩
            | exact ⟨2, by omega, by omega, h2⟩
            | exact ⟨3, by omega, by omega, h3⟩
      · rintro ⟨a, ha1, ha3, hs⟩
        refine ⟨log_line, ?_⟩
        rw [ht]
        first
          | (simp; done)
          | (exfalso; interval_cases a <;> simp_all)
    · intro a ha1 ha3 hs b e p hmem
      rw [ht] at hmem
      simp only [List.mem_cons, List.not_mem_nil, or_false] at hmem
      interval_cases a <;>
        first
          | (simp_all; done)
          | (rcases hmem with h | h | h <;> simp_all <;> omega)

/-- C4 witness: with the first two attempts failing and the third returning
HTTP 200, the entry is marked delivered. -/
theorem C4_delivered_iff_success_witness :
    ∃ l, SendEvent.successLog l ∈
      send_to_signoz
        { log_files := ["/var/log/app.log"], endpoint := "http://localhost:4318/v1/logs",
          rate_limit := none, service_name := none, host_name := none }
        "http://localhost:4318/v1/logs" "x" "/var/log/app.log" none none
        (fun a => if a = 3 then HttpResult.response 200 else HttpResult.response 503) :=
  (C4_delivered_iff_success
      { log_files := ["/var/log/app.log"], endpoint := "http://localhost:4318/v1/logs",
        rate_limit := none, service_name := none, host_name := none }
      "http://localhost:4318/v1/logs" "x" "/var/log/app.log" none none
      (fun a => if a = 3 then HttpResult.response 200 else HttpResult.response 503)).1.mpr
    ⟨3, by omega, by rw [MAX_RETRIES], by decide⟩

/-- C10: the severity classification and the payload (timestamp included) are
fixed before the retry loop: every post of one `send_to_signoz` call carries
the identical payload, built from the classifier's outputs for the line and
from the single wall-clock reading, and targets the caller's endpoint. -/
theorem C10_payload_fixed_across_retries (config : Config) (endpoint log_line file : String)
    (osHostname : Option String) (nowNanos : Option Int) (outcome : Nat → HttpResult) :
    ∀ a e p, SendEvent.post a e p ∈
        send_to_signoz config endpoint log_line file osHostname nowNanos outcome →
      p = build_otlp_payload log_line file (detect_severity_generic log_line).1
            (detect_severity_generic log_line).2 config osHostname nowNanos ∧
      e = endpoint := by
  have ht := send_trace_cases config endpoint log_line file osHostname nowNanos outcome
  intro a e p hmem
  rw [ht] at hmem
  by_cases h1 : attemptSucceeds (outcome 1) = true <;>
    by_cases h2 : attemptSucceeds (outcome 2) = true <;>
      by_cases h3 : attemptSucceeds (outcome 3) = true <;>
        simp_all <;> tauto

/-- C10 witness: applied to a concrete call whose first attempt succeeds. -/
theorem C10_payload_fixed_across_retries_witness :
    build_otlp_payload "hello" "/var/log/app.log" (detect_severity_generic "hello").1
        (detect_severity_generic "hello").2
        { log_files := ["/var/log/app.log"], endpoint := "http://localhost:4318/v1/logs",
          rate_limit := none, service_name := none, host_name := none } none none =
      build_otlp_payload "hello" "/var/log/app.log" (detect_severity_generic "hello").1
        (detect_severity_generic "hello").2
        { log_files := ["/var/log/app.log"], endpoint := "http://localhost:4318/v1/logs",
          rate_limit := none, service_name := none, host_name := none } none none ∧
    "http://localhost:4318/v1/logs" = "http://localhost:4318/v1/logs" := by
  have h := C10_payload_fixed_across_retries
    { log_files := ["/var/log/app.log"], endpoint := "http://localhost:4318/v1/logs",
      rate_limit := none, service_name := none, host_name := none }
    "http://localhost:4318/v1/logs" "hello" "/var/log/app.log" none none
    (fun _ => HttpResult.response 204) 1 "http://localhost:4318/v1/logs"
    (build_otlp_payload "hello" "/var/log/app.log" (detect_severity_generic "hello").1
      (detect_severity_generic "hello").2
      { log_files := ["/var/log/app.log"], endpoint := "http://localhost:4318/v1/logs",
        rate_limit := none, service_name := none, host_name := none } none none)
    (by rw [send_trace_cases]; simp [attemptSucceeds, isSuccessStatus])
  exact ⟨h.1.symm ▸ rfl, h.2⟩

/-! ### The claim about the rate limiter (C2) -/

/-- C2 (code-bug evaluation): for a `Config` whose `rate_limit` field is `0`,
the code does construct a rate limiter — with a refill rate of 100 records
per second, coming from `NonZeroU32::new(0).unwrap_or(nonzero!(100u32))` —
and the dispatcher waits for its tokens, contradicting the claim that a
`rate_limit` of 0 leaves delivery unthrottled with no limiter constructed. -/
theorem C2_rate_limit_zero_builds_limiter :
    limiterOfConfig
        { log_files := ["/var/log/app.log"], endpoint := "http://localhost:4318/v1/logs",
          rate_limit := some 0, service_name := none, host_name := none } = some 100 ∧
    dispatcherWaits
        { log_files := ["/var/log/app.log"], endpoint := "http://localhost:4318/v1/logs",
          rate_limit := some 0, service_name := none, host_name := none } = true ∧
    limiterOfConfig
        { log_files := ["/var/log/app.log"], endpoint := "http://localhost:4318/v1/logs",
          rate_limit := none, service_name := none, host_name := none } = none ∧
    limiterOfConfig
        { log_files := ["/var/log/app.log"], endpoint := "http://localhost:4318/v1/logs",
          rate_limit := some 7, service_name := none, host_name := none } = some 7 := by
  exact ⟨rfl, rfl, rfl, rfl⟩

/-! ### The claim about the payload builder (C5) -/

/-- C5: the payload built from a line, its source file and the classifier's
outputs holds exactly one resource log, one scope log and one log record; the
record carries the classifier's severity pair, the verbatim line as its
string body, the single `log.file` attribute with the source path, and the
wall-clock nanosecond timestamp (0 when unrepresentable); the resource
attributes are `service.name` (config value or the fixed default
`rust-signoz-agent`) and `host.name` (config value, else the OS host name,
else `unknown`). -/
theorem C5_payload_shape (line file : String) (config : Config)
    (osHostname : Option String) (nowNanos : Option Int) :
    ∃ rl sl rec,
      (build_otlp_payload line file (detect_severity_generic line).1
          (detect_severity_generic line).2 config osHostname nowNanos).resourceLogs = [rl] ∧
      rl.scopeLogs = [sl] ∧
      sl.logRecords = [rec] ∧
      rec.severityText = (detect_severity_generic line).1 ∧
      rec.severityNumber = (detect_severity_generic line).2 ∧
      rec.body.string_value = line ∧
      rec.attributes = [⟨"log.file", AttributeValue.stringValue file⟩] ∧
      rec.timeUnixNano = toString (nowNanos.getD 0) ∧
      rl.resource.attributes =
        [⟨"service.name",
          AttributeValue.stringValue (config.service_name.getD "rust-signoz-agent")⟩,
         ⟨"host.name",
          AttributeValue.stringValue
            ((config.host_name.orElse fun _ => osHostname).getD "unknown")⟩] :=
  ⟨_, _, _, rfl, rfl, rfl, rfl, rfl, rfl, rfl, rfl, rfl⟩

/-! ### The claims about the file tailer (C6, C8) -/

theorem dropWhile_head_not {p : Char → Bool} : ∀ (l : List Char) {c : Char},
    (l.dropWhile p).head? = some c → p c = false := by
  intro l
  induction l with
  | nil => intro c h; cases h
  | cons a l ih =>
    intro c h
    rw [List.dropWhile] at h
    cases hpa : p a with
    | true => rw [hpa] at h; exact ih h
    | false =>
      rw [hpa] at h
      simp only [List.head?_cons, Option.some.injEq] at h
      rw [← h]
      exact hpa

/-- The result of `rustTrimEnd` never ends in a whitespace character. -/
theorem rustTrimEnd_getLast {cs : List Char} {c : Char}
    (h : (rustTrimEnd cs).getLast? = some c) : c.isWhitespace = false := by
  unfold rustTrimEnd at h
  rw [List.getLast?_reverse] at h
  exact dropWhile_head_not _ h

/-- Every `emit` event of the read loop comes from a read line that is
non-blank after trimming, and carries that line trimmed of trailing
whitespace. -/
theorem tailLoop_emit {reopenOk : Nat → Bool} :
    ∀ (reads : List ReadResult) (errs : Nat) (out : String),
    TailEvent.emit out ∈ tailLoop reopenOk reads errs →
    ∃ s, ReadResult.line s ∈ reads ∧ (rustTrim s.data).isEmpty = false ∧
      out = String.mk (rustTrimEnd s.data) := by
  intro reads
  induction reads with
  | nil => intro errs out h; simp [tailLoop] at h
  | cons r rs ih =>
    intro errs out h
    cases r with
    | eof =>
      rw [tailLoop] at h
      simp only [List.mem_cons] at h
      rcases h with h | h
      · cases h
      · obtain ⟨s, hs, h1, h2⟩ := ih errs out h
        exact ⟨s, List.mem_cons_of_mem _ hs, h1, h2⟩
    | line s =>
      rw [tailLoop] at h
      by_cases hb : (rustTrim s.data).isEmpty = true
      · rw [if_pos hb] at h
        simp only [List.nil_append] at h
        obtain ⟨s', hs', h1, h2⟩ := ih errs out h
        exact ⟨s', List.mem_cons_of_mem _ hs', h1, h2⟩
      · rw [if_neg hb] at h
        simp only [List.cons_append, List.nil_append, List.mem_cons] at h
        rcases h with h | h
        · cases h
          exact ⟨s, List.mem_cons_self _ _, Bool.not_eq_true _ ▸ hb, rfl⟩
        · obtain ⟨s', hs', h1, h2⟩ := ih errs out h
          exact ⟨s', List.mem_cons_of_mem _ hs', h1, h2⟩
    | fail =>
      rw [tailLoop] at h
      simp only [List.mem_cons, List.mem_append] at h
      rcases h with (h | h | h) | h
      · cases h
      · cases h
      · exfalso
        by_cases hro : reopenOk errs = true <;> simp [hro] at h
      · obtain ⟨s', hs', h1, h2⟩ := ih (errs + 1) out h
        exact ⟨s', List.mem_cons_of_mem _ hs', h1, h2⟩

/-- C6: a line read by a tailer is emitted (pushed onto the ingestion queue)
only when it is non-blank after trimming, the emitted text is the read line
trimmed of its trailing whitespace (in particular of its trailing newline),
and consequently never ends in a newline; blank or whitespace-only lines are
never emitted. -/
theorem C6_emit_only_nonblank_trimmed (openOk : Bool) (reopenOk : Nat → Bool)
    (reads : List ReadResult) (out : String)
    (h : TailEvent.emit out ∈ tail_file openOk reopenOk reads) :
    ∃ s, ReadResult.line s ∈ reads ∧ (rustTrim s.data).isEmpty = false ∧
      out = String.mk (rustTrimEnd s.data) ∧
      (∀ c, out.data.getLast? = some c → c.isWhitespace = false) := by
  unfold tail_file at h
  cases openOk with
  | false => simp at h
  | true =>
    simp only [if_true, List.mem_cons] at h
    rcases h with h | h
    · cases h
    · obtain ⟨s, hs, h1, h2⟩ := tailLoop_emit reads 0 out h
      refine ⟨s, hs, h1, h2, ?_⟩
      intro c hc
      rw [h2] at hc
      exact rustTrimEnd_getLast hc

/-- C6 witness: the theorem applied to a tailer that reads the single line
`"hello \n"` and emits `"hello"`. -/
theorem C6_emit_only_nonblank_trimmed_witness :
    ∃ s, ReadResult.line s ∈ [ReadResult.line "hello \n"] ∧
      (rustTrim s.data).isEmpty = false ∧
      "hello" = String.mk (rustTrimEnd s.data) ∧
      (∀ c, "hello".data.getLast? = some c → c.isWhitespace = false) :=
  C6_emit_only_nonblank_trimmed true (fun _ => true) [ReadResult.line "hello \n"] "hello"
    (by decide)

/-- C8: when the initial open of the tailed file fails, the worker's whole
trace is the single failed open attempt plus the error log: it emits no
entry, never attempts a reopen, and never attempts another open, whatever
read results or reopen outcomes the rest of the process would have offered. -/
theorem C8_open_fail_terminates (reopenOk : Nat → Bool) (reads : List ReadResult) :
    tail_file false reopenOk reads = [TailEvent.openAttempt, TailEvent.openFailLog] ∧
    (∀ out, TailEvent.emit out ∉ tail_file false reopenOk reads) ∧
    TailEvent.reopenAttempt ∉ tail_file false reopenOk reads ∧
    (tail_file false reopenOk reads).count TailEvent.openAttempt = 1 := by
  refine ⟨rfl, ?_, ?_, rfl⟩
  · intro out
    show TailEvent.emit out ∉ [TailEvent.openAttempt, TailEvent.openFailLog]
    simp
  · show TailEvent.reopenAttempt ∉ [TailEvent.openAttempt, TailEvent.openFailLog]
    simp

/-- C8 witness: the theorem applied to a schedule that would have produced
emits had the open succeeded. -/
theorem C8_open_fail_terminates_witness :
    tail_file false (fun _ => true) [ReadResult.line "hello\n"] =
      [TailEvent.openAttempt, TailEvent.openFailLog] :=
  (C8_open_fail_terminates (fun _ => true) [ReadResult.line "hello\n"]).1

/-! ### The claim about config validation (C7) -/

theorem checkLogFiles_ok_iff (fsExists metaOk : String → Bool) :
    ∀ files : List String,
    checkLogFiles fsExists metaOk files = Except.ok () ↔
      ∀ f ∈ files, fsExists f = true ∧ metaOk f = true := by
  intro files
  induction files with
  | nil => simp [checkLogFiles]
  | cons f rest ih =>
    rw [checkLogFiles]
    by_cases h1 : fsExists f = true
    · by_cases h2 : metaOk f = true
      · simp [h1, h2, ih]
      · simp [h1, h2]
    · simp [h1]

theorem validate_ok_iff (fsExists metaOk : String → Bool) (config : Config) :
    validate_config fsExists metaOk config = Except.ok () ↔
      ((∀ f ∈ config.log_files, fsExists f = true ∧ metaOk f = true) ∧
       schemeOk config.endpoint = true ∧ urlRegexMatch config.endpoint = true) := by
  unfold validate_config
  cases hc : checkLogFiles fsExists metaOk config.log_files with
  | error e =>
    constructor
    · intro h; cases h
    · rintro ⟨hall, -, -⟩
      exfalso
      rw [(checkLogFiles_ok_iff fsExists metaOk config.log_files).mpr hall] at hc
      cases hc
  | ok u =>
    cases u
    have hall := (checkLogFiles_ok_iff fsExists metaOk config.log_files).mp hc
    by_cases hs : schemeOk config.endpoint = true
    · by_cases hr : urlRegexMatch config.endpoint = true
      · simp only [hs, hr]
        simp
        exact hall
      · simp [hs, hr]
    · simp [hs]

theorem except_error_iff {x : Except ConfigError Unit} :
    (∃ e, x = Except.error e) ↔ ¬(x = Except.ok ()) := by
  cases x with
  | error e => simp
  | ok u => cases u; simp

/-- C7: `validate_config` returns an error exactly when some configured log
file path does not exist or its metadata cannot be accessed, or the endpoint
does not start with `http://` or `https://`, or the endpoint does not match
the permissive URL regex; otherwise it returns `Ok`. -/
theorem C7_validate_error_iff (fsExists metaOk : String → Bool) (config : Config) :
    (∃ e, validate_config fsExists metaOk config = Except.error e) ↔
      ((∃ f ∈ config.log_files, fsExists f = false ∨ metaOk f = false) ∨
       schemeOk config.endpoint = false ∨ urlRegexMatch config.endpoint = false) := by
  rw [except_error_iff, validate_ok_iff]
  constructor
  · intro h
    by_cases hall : ∀ f ∈ config.log_files, fsExists f = true ∧ metaOk f = true
    · by_cases hs : schemeOk config.endpoint = true
      · by_cases hr : urlRegexMatch config.endpoint = true
        · exact absurd ⟨hall, hs, hr⟩ h
        · exact Or.inr (Or.inr (by simpa using hr))
      · exact Or.inr (Or.inl (by simpa using hs))
    · left
      push_neg at hall
      obtain ⟨f, hf, hnot⟩ := hall
      refine ⟨f, hf, ?_⟩
      by_cases h1 : fsExists f = true
      · by_cases h2 : metaOk f = true
        · exact absurd h2 (hnot h1)
        · exact Or.inr (by simpa using h2)
      · exact Or.inl (by simpa using h1)
  · rintro (⟨f, hf, hbad⟩ | hs | hr) ⟨hall, hsch, hreg⟩
    · rcases hbad with hb | hb
      · rw [(hall f hf).1] at hb; cases hb
      · rw [(hall f hf).2] at hb; cases hb
    · rw [hsch] at hs; cases hs
    · rw [hreg] at hr; cases hr

/-- C7 witness: a config whose endpoint has a non-HTTP scheme fails
validation. -/
theorem C7_validate_error_iff_witness :
    ∃ e, validate_config (fun _ => true) (fun _ => true)
        { log_files := [], endpoint := "ftp://collector:4318", rate_limit := none,
          service_name := none, host_name := none } = Except.error e :=
  (C7_validate_error_iff (fun _ => true) (fun _ => true)
      { log_files := [], endpoint := "ftp://collector:4318", rate_limit := none,
        service_name := none, host_name := none }).mpr
    (Or.inr (Or.inl (by decide)))

end RustSignozAgent
